import Mathlib

/-!
Verification development for the CB_Sesh browser upload client.

The development shallowly embeds the two scripts of the repository:
* `cb-api.js` — centralized API module (namespace `CbApi`), and
* the unnamed mobile upload script (namespace `Mobile`), whose first half is
  the 2-step mobile upload IIFE and whose second half is a second `cb-api`
  variant.

Browser values are modelled as follows: a `File`/`Blob` is a record of an
optional filename, a declared MIME type, and an opaque content string; a
`FormData` is an ordered list of (key, value) entries; a JS object used as a
JSON payload is an ordered association list of (key, value) pairs so that
key-presence questions (`'notes' in payload`, `delete payload.notes`) are
faithful; machine timestamps are epoch-millisecond integers.
-/

namespace CBSesh

/-- Lowercased character list of a string; used to model JS case-insensitive
regex tests (`/pat/i.test(s)`). -/
def lowerStr (s : String) : List Char := s.data.map Char.toLower

/-- Case-insensitive substring test: models `/pat/i.test(s)` where `pat` is a
lowercase literal with no regex metacharacters. -/
def ciContains (s pat : String) : Bool := decide (pat.data <:+: lowerStr s)

/-- Case-insensitive end-anchored test: models `/\.xyz$/i.test(s)`-style
regexes, where `pat` is the lowercase literal (dot included). -/
def ciEndsWith (s pat : String) : Bool := decide (pat.data <:+ lowerStr s)

/-- Case-sensitive substring test: models JS `String.prototype.includes`. -/
def csContains (s pat : String) : Bool := decide (pat.data <:+: s.data)

/-- Model of a browser `File`/`Blob`: optional filename (a `Blob` has none, a
`File` has one), declared MIME type, opaque binary content. -/
structure JSBlob where
  name : Option String
  type : String
  content : String
deriving DecidableEq, Repr

namespace Mobile

/-- Source: `const allowed = [...]` in `normalizeAudioFile`
(src/unnamed/part_000, line 106). -/
def allowedAudioTypes : List String :=
  ["audio/mpeg", "audio/mp3", "audio/wav", "audio/x-wav", "audio/aac",
   "audio/x-aac", "audio/mp4", "audio/m4a", "audio/x-m4a", "audio/ogg",
   "application/ogg"]

/-- Source: `/\.(mp3|wav|m4a|aac|ogg)$/i.test(guessedName)`
(src/unnamed/part_000, line 109). -/
def hasKnownExtTest (n : String) : Bool :=
  ciEndsWith n ".mp3" || ciEndsWith n ".wav" || ciEndsWith n ".m4a" ||
  ciEndsWith n ".aac" || ciEndsWith n ".ogg"

/-- Source: the ordered extension guesses of `normalizeAudioFile`
(src/unnamed/part_000, lines 114-118). -/
def chooseAudioExt (ty nm : String) : String :=
  if ciContains ty "ogg" || ciEndsWith nm ".ogg" then "ogg"
  else if ciContains ty "wav" || ciEndsWith nm ".wav" then "wav"
  else if ciContains ty "mp3" || ciContains ty "mpeg" || ciEndsWith nm ".mp3" then "mp3"
  else if ciContains ty "aac" || ciEndsWith nm ".aac" then "aac"
  else "m4a"

/-- Source: `const typeMap = {...}; const safeType = typeMap[ext] || 'audio/m4a';`
(src/unnamed/part_000, lines 120-121). -/
def audioTypeMap (ext : String) : String :=
  if ext == "mp3" then "audio/mpeg"
  else if ext == "wav" then "audio/wav"
  else if ext == "m4a" then "audio/m4a"
  else if ext == "aac" then "audio/aac"
  else if ext == "ogg" then "audio/ogg"
  else "audio/m4a"

/-- Source: `guessedName.replace(/\.[^.]+$/, '')` (src/unnamed/part_000,
line 123): drop a final dot-plus-nonempty-dotless-extension, else identity. -/
def stripTrailingExt (s : String) : String :=
  let rev := s.data.reverse
  match rev.takeWhile (fun c => c ≠ '.'), rev.dropWhile (fun c => c ≠ '.') with
  | _ :: _, '.' :: rest => String.mk rest.reverse
  | _, _ => s

/-- Source: `normalizeAudioFile(fileOrBlob)` (src/unnamed/part_000, lines
104-137). The JS `try { new File(...) } catch { ... Blob ... }` always
produces a value carrying `safeName` and `safeType`, so both branches are one
model value. A JS `null` argument is `none`. -/
def normalizeAudioFile : Option JSBlob → Option JSBlob
  | none => none
  | some f =>
    let okType := allowedAudioTypes.contains f.type
    let guessedName := f.name.getD ""
    let hasKnownExt := hasKnownExtTest guessedName
    if !okType || !hasKnownExt then
      let ext := chooseAudioExt f.type guessedName
      let safeType := audioTypeMap ext
      let safeName :=
        if guessedName ≠ "" && !hasKnownExt then
          stripTrailingExt guessedName ++ "." ++ ext
        else if guessedName ≠ "" then guessedName
        else "session_audio." ++ ext
      some { name := some safeName, type := safeType, content := f.content }
    else
      some f

end Mobile

/-! ### Structured log buffers (claim C5) -/

/-- Model of one structured log record: generated timestamp (modelled as a
counter), level, message, extra detail. -/
structure LogEntry where
  t : Nat
  level : String
  msg : String
  extra : String
deriving DecidableEq, Repr

namespace CbApi

/-- Source: `const LOG_CAP = 5000;` (src/cb-api.js, line 16). -/
def LOG_CAP : Nat := 5000

/-- Source: `logs.push(item); if(logs.length > LOG_CAP) logs.shift();` inside
`pushLog` (src/cb-api.js, line 21). Subscriber notification and the console
mirror carry no buffer state and are not modelled. -/
def pushLog (logs : List LogEntry) (item : LogEntry) : List LogEntry :=
  let l := logs ++ [item]
  if LOG_CAP < l.length then l.tail else l

end CbApi

namespace Mobile

/-- Source: `__logs.push(entry);` inside `log` (src/unnamed/part_000,
line 320): the second-half log buffer appends unconditionally — it has no
capacity check. -/
def logPush (logs : List LogEntry) (entry : LogEntry) : List LogEntry :=
  logs ++ [entry]

end Mobile

/-! ### JSON values, form values and request bodies -/

/-- Model of the file objects built by the JSON fallback conversion:
`{ filename, content_type, data }` (src/cb-api.js, line 123). -/
structure FileObj where
  filename : String
  content_type : String
  data : String
deriving DecidableEq, Repr

/-- Values stored in a JSON payload object. -/
inductive JVal where
  | s (v : String)
  | file (f : FileObj)
  | files (l : List FileObj)
  | nullv
deriving DecidableEq, Repr

/-- A JS object used as a JSON payload: an ordered association list, so that
key-presence tests and `delete` are faithful. -/
abbrev JPayload := List (String × JVal)

/-- One `FormData` entry value: a plain string or a file/blob. -/
inductive FormVal where
  | str (s : String)
  | blob (b : JSBlob)
deriving DecidableEq, Repr

/-- A browser `FormData`: ordered list of (key, value) entries. -/
abbrev FormData := List (String × FormVal)

/-- Outbound request body. `jsonStr p` stands for the string body
`JSON.stringify(p)`; for the header logic only stringness matters. -/
inductive Body where
  | form (fd : FormData)
  | str (s : String)
  | jsonStr (p : JPayload)
  | empty
deriving DecidableEq, Repr

/-- JS `typeof body === 'string' && body` truthiness test used by the
content-type auto-set (src/cb-api.js, line 77): a string body that is
non-empty. A `jsonStr` body is a non-empty string body. -/
def isNonEmptyStringBody : Body → Bool
  | .str s => s ≠ ""
  | .jsonStr _ => true
  | _ => false

/-! ### Header assembly (claim C8) -/

/-- Header object: association list, first match wins on lookup. -/
abbrev Headers := List (String × String)

/-- Lookup in a header object. -/
def hGet (h : Headers) (k : String) : Option String := h.lookup k

/-- JS object spread `{...a, ...b}`: keys of `b` override keys of `a`. With
first-match lookup this is `b ++ a`. -/
def jsSpread2 (a b : Headers) : Headers := b ++ a

namespace CbApi

/-- Source: `buildAuthHeaders(mode, key)` (src/cb-api.js, line 49). -/
def buildAuthHeaders (mode key : String) : Headers :=
  if mode == "bearer" then [("Authorization", "Bearer " ++ key)]
  else if mode == "xapikey" then [("X-API-Key", key)]
  else []

/-- Source: header assembly of `apiFetch` (src/cb-api.js, lines 76-77):
`const headers = { ...(opts.headers||{}), ...buildAuthHeaders(mode, key) };
if (opts.body && typeof opts.body === 'string' && !headers['Content-Type'])
headers['Content-Type'] = 'application/json';`. The JS falsiness test
`!headers['Content-Type']` is true for a missing key and for an empty-string
value. -/
def apiFetchHeaders (optHeaders : Headers) (mode key : String) (body : Body) : Headers :=
  let headers := jsSpread2 optHeaders (buildAuthHeaders mode key)
  let ctFalsy := match hGet headers "Content-Type" with
    | some v => v == ""
    | none => true
  if isNonEmptyStringBody body && ctFalsy then
    ("Content-Type", "application/json") :: headers
  else headers

end CbApi

namespace Mobile

/-- Source: `authHeaders(extra)` (src/unnamed/part_000, lines 51-54):
`{ 'X-API-Key': key, ...extra }`. -/
def authHeaders (key : String) (extra : Headers) : Headers :=
  jsSpread2 [("X-API-Key", key)] extra

/-- Source: the headers sent by `httpForm` (src/unnamed/part_000, line 76):
`authHeaders({ 'Accept': 'application/json' })` — deliberately no
Content-Type for the multipart body. -/
def httpFormHeaders (key : String) : Headers :=
  authHeaders key [("Accept", "application/json")]

/-- Source: header assembly of the second-half `apiFetch`
(src/unnamed/part_000, lines 364-365): caller headers, plus `X-API-Key` when
absent. (Browser `Headers` name folding is immaterial here: no caller mixes
cases.) -/
def apiFetchHeaders (headers : Headers) (key : String) : Headers :=
  if (hGet headers "X-API-Key").isNone then headers ++ [("X-API-Key", key)]
  else headers

end Mobile

/-! ### JSON response values and JS coercions -/

/-- Model of a parsed JSON response value. -/
inductive Json where
  | str (s : String)
  | num (n : Int)
  | jbool (b : Bool)
  | null
  | obj (fields : List (String × Json))
  | arr (elems : List Json)

/-- JS member access `res.k` / `res?.k`: `none` models `undefined`. -/
def jget : Json → String → Option Json
  | .obj fs, k => fs.lookup k
  | _, _ => none

/-- JS optional-chained two-step access `res?.k1?.k2`. -/
def jget2 (res : Json) (k1 k2 : String) : Option Json :=
  match jget res k1 with
  | some v => jget v k2
  | none => none

/-- JS nullish test (`undefined` or `null`). -/
def nullish : Option Json → Bool
  | none => true
  | some .null => true
  | _ => false

/-- JS truthiness of a possibly-undefined value. -/
def jsTruthy : Option Json → Bool
  | none => false
  | some .null => false
  | some (.str s) => s ≠ ""
  | some (.num n) => n ≠ 0
  | some (.jbool b) => b
  | some (.obj _) => true
  | some (.arr _) => true

/-- JS nullish coalescing `a ?? b`. -/
def jsCoalesce (a b : Option Json) : Option Json :=
  if nullish a then b else a

/-- JS logical or `a || b` on possibly-undefined values. -/
def jsOrJ (a b : Option Json) : Option Json :=
  if jsTruthy a then a else b

/-- First non-nullish element of a list of possibly-undefined values (the
value of a `??` chain). -/
def firstNonNullish : List (Option Json) → Option Json
  | [] => none
  | a :: rest => if nullish a then firstNonNullish rest else a

/-! ### Session-id extraction (claim C4) -/

namespace CbApi

/-- Source: `const sessionId = res.id ?? res.sessionId ?? res._id ?? res.uuid;`
(src/cb-api.js, line 239). -/
def uploadSessionIdOf (res : Json) : Option Json :=
  jsCoalesce (jget res "id")
    (jsCoalesce (jget res "sessionId")
      (jsCoalesce (jget res "_id") (jget res "uuid")))

/-- Source: `if(!sessionId) throw new Error('Upload succeeded but response
did not include a session ID.');` (src/cb-api.js, line 240). `true` means the
extraction passes the falsiness guard. -/
def uploadSessionIdOk (res : Json) : Bool :=
  jsTruthy (uploadSessionIdOf res)

end CbApi

namespace Mobile

/-- Source: `const sessionId = res?.session_id || res?.data?.id || res?.id;`
(src/unnamed/part_000, line 150). -/
def mobileSessionIdOf (res : Json) : Option Json :=
  jsOrJ (jget res "session_id") (jsOrJ (jget2 res "data" "id") (jget res "id"))

/-- Source: `if (!sessionId) throw new Error("Create session response missing
session_id.");` (src/unnamed/part_000, line 151). -/
def mobileSessionIdOk (res : Json) : Bool :=
  jsTruthy (mobileSessionIdOf res)

end Mobile

/-- Modelled from the spec words of claim C4: the "common response shapes" —
"a bare id, an id nested under a wrapper object, and snake_case and camelCase
variants". -/
def specCommonShapeMatches (res : Json) : Bool :=
  jsTruthy (jget res "id") || jsTruthy (jget2 res "data" "id") ||
  jsTruthy (jget res "session_id") || jsTruthy (jget res "sessionId")

/-! ### String helpers for payload shaping -/

/-- Lookup in a JS-object-like string association where a later assignment to
the same key wins (`plain[k] = v`). -/
def lastAssoc (l : List (String × String)) (k : String) : Option String :=
  ((l.filter (fun p => p.1 == k)).getLast?).map (fun p => p.2)

/-- JS `a || b` on strings (empty string is falsy). -/
def jsOrS (a b : String) : String := if a ≠ "" then a else b

/-- JS `s.split('/')[1] || dflt`: second slash-separated part, or the default
when it is missing or empty. -/
def slashPart1OrD (s dflt : String) : String :=
  match s.splitOn "/" with
  | _ :: t :: _ => if t == "" then dflt else t
  | _ => dflt

/-- JS `s.split(';')[0]`. -/
def cutSemi (s : String) : String := (s.splitOn ";").headD ""

/-! ### Duration (claim C10) -/

namespace CbApi

/-- JS `Math.round`: round half toward positive infinity. -/
def jsRound (x : ℚ) : Int := Int.floor (x + 1 / 2)

/-- Source: `function secondsBetweenISO(a,b){ try{ return Math.max(0,
Math.round((new Date(b).getTime()-new Date(a).getTime())/1000)); }catch{
return 0; } }` (src/cb-api.js, line 249), for timestamps that parse to valid
dates, modelled by their epoch-millisecond values. -/
def secondsBetweenISO (aMs bMs : Int) : Int :=
  max 0 (jsRound (((bMs - aMs : Int) : ℚ) / 1000))

end CbApi

/-! ### Outbound payload builders (claims C2, C10) -/

/-- Opaque stand-in for rendering an epoch-millisecond timestamp as an ISO
string; no claim inspects the rendering. -/
def msToIso (n : Int) : String := toString n

/-- A Session Draft as consumed by `uploadSession` (src/cb-api.js, line 222);
the ISO timestamps are modelled by their epoch-millisecond values. -/
structure Draft where
  audio : Option JSBlob
  images : List JSBlob
  text : String
  conferenceId : String
  vendorId : String
  startMs : Int
  endMs : Int

namespace CbApi

/-- Source: `session.${(audioBlob.type.split('/')[1]||'webm').split(';')[0]}`
(src/cb-api.js, line 226). -/
def audioUploadExt (ty : String) : String :=
  cutSemi (slashPart1OrD ty "webm")

/-- Source: the `FormData` built by `uploadSession` (src/cb-api.js, lines
225-235). -/
def buildUploadFormData (d : Draft) : FormData :=
  (match d.audio with
   | some a => [("audio", FormVal.blob
       { name := some ("session." ++ audioUploadExt a.type),
         type := a.type, content := a.content })]
   | none => [])
  ++ d.images.map (fun f => ("images", FormVal.blob f))
  ++ (if d.text ≠ "" then [("text", FormVal.str d.text)] else [])
  ++ [("conference_id", FormVal.str d.conferenceId),
      ("conferenceId", FormVal.str d.conferenceId),
      ("vendor_id", FormVal.str d.vendorId),
      ("vendorId", FormVal.str d.vendorId),
      ("start_time", FormVal.str (msToIso d.startMs)),
      ("startTime", FormVal.str (msToIso d.startMs)),
      ("end_time", FormVal.str (msToIso d.endMs)),
      ("endTime", FormVal.str (msToIso d.endMs)),
      ("duration_seconds", FormVal.str (toString (secondsBetweenISO d.startMs d.endMs))),
      ("durationSeconds", FormVal.str (toString (secondsBetweenISO d.startMs d.endMs)))]

/-- Source: the `contentType` recovered from the data URL inside
`formDataToJsonPayload` (src/cb-api.js, line 122): the blob type, defaulting
to application/octet-stream. -/
def readContentType (v : JSBlob) : String :=
  if v.type ≠ "" then v.type else "application/octet-stream"

/-- Source: the `fileObj` of `formDataToJsonPayload` (src/cb-api.js,
line 123). Base64 encoding is modelled as the identity on the opaque
content. -/
def fileObjOf (v : JSBlob) : FileObj :=
  let ct := readContentType v
  { filename := if v.name.getD "" ≠ "" then v.name.getD ""
                else "file." ++ slashPart1OrD ct "bin",
    content_type := ct,
    data := v.content }

/-- Source: the blob branch of the `formDataToJsonPayload` loop
(src/cb-api.js, lines 117-124): audio-keyed blobs land in `payload.audio`
(last one wins), other blobs are pushed onto `payload.images`. -/
def payloadFiles (fd : FormData) : List FileObj × Option FileObj :=
  fd.foldl
    (fun acc kv =>
      match kv.2 with
      | .blob b =>
        if ciContains kv.1 "audio" then (acc.1, some (fileObjOf b))
        else (acc.1 ++ [fileObjOf b], acc.2)
      | .str _ => acc)
    ([], none)

/-- Source: the string branch of the loop (src/cb-api.js, line 126):
`plain[k] = v` — read back through `lastAssoc`. -/
def plainStrings (fd : FormData) : List (String × String) :=
  fd.filterMap (fun kv =>
    match kv.2 with
    | .str s => some (kv.1, s)
    | .blob _ => none)

/-- Source: `formDataToJsonPayload(fd)` (src/cb-api.js, lines 114-150),
including the `delete plain.notes` (line 131) and the final
`delete payload.notes` (line 148). -/
def formDataToJsonPayload (fd : FormData) : JPayload :=
  let files := payloadFiles fd
  let plain := (plainStrings fd).filter (fun p => p.1 ≠ "notes")
  let get := fun k => (lastAssoc plain k).getD ""
  let conference_id := jsOrS (get "conference_id") (get "conferenceId")
  let vendor_id := jsOrS (get "vendor_id") (get "vendorId")
  let text := get "text"
  let start_time := jsOrS (get "start_time") (get "startTime")
  let end_time := jsOrS (get "end_time") (get "endTime")
  let duration := jsOrS (get "duration_seconds") (get "durationSeconds")
  let payload : JPayload :=
    [("images", JVal.files files.1),
     ("audio", match files.2 with | some f => JVal.file f | none => JVal.nullv)]
    ++ (if conference_id ≠ "" then
          [("conference_id", JVal.s conference_id), ("conferenceId", JVal.s conference_id)]
        else [])
    ++ (if vendor_id ≠ "" then
          [("vendor_id", JVal.s vendor_id), ("vendorId", JVal.s vendor_id)]
        else [])
    ++ (if text ≠ "" then [("text", JVal.s text)] else [])
    ++ (if start_time ≠ "" then
          [("start_time", JVal.s start_time), ("startTime", JVal.s start_time)]
        else [])
    ++ (if end_time ≠ "" then
          [("end_time", JVal.s end_time), ("endTime", JVal.s end_time)]
        else [])
    ++ (if duration ≠ "" then
          [("duration_seconds", JVal.s duration), ("durationSeconds", JVal.s duration)]
        else [])
  payload.filter (fun p => p.1 ≠ "notes")

end CbApi

namespace Mobile

/-- Source: the JSON payload of `createMobileSession` (src/unnamed/part_000,
lines 143-148); `userNotes || ""` is already a string here. -/
def createMobileSessionPayload (vendorId conferenceId startISO userNotes : String) : JPayload :=
  [("vendor_id", JVal.s vendorId),
   ("conference_id", JVal.s conferenceId),
   ("start_time", JVal.s startISO),
   ("user_notes", JVal.s userNotes)]

/-- Source: the `FormData` of `uploadBatchToMobile` (src/unnamed/part_000,
lines 158-164). Note the `if (notes) fd.append('notes', notes);`. -/
def uploadBatchFormData (audio : Option JSBlob) (images : List JSBlob)
    (notes endISO : String) : FormData :=
  (match audio with | some a => [("audio_file", FormVal.blob a)] | none => [])
  ++ images.map (fun f => ("business_card_images", FormVal.blob f))
  ++ (if notes ≠ "" then [("notes", FormVal.str notes)] else [])
  ++ (if endISO ≠ "" then [("end_time", FormVal.str endISO)] else [])

/-- Source: the `FormData` of `fallbackOneShotUpload` (src/unnamed/part_000,
lines 184-192): the free text goes out under `user_notes`. -/
def fallbackOneShotFormData (vendorId conferenceId startISO endISO : String)
    (audio : Option JSBlob) (images : List JSBlob) (notes : String) : FormData :=
  [("vendor_id", FormVal.str vendorId),
   ("conference_id", FormVal.str conferenceId),
   ("start_time", FormVal.str startISO)]
  ++ (if endISO ≠ "" then [("end_time", FormVal.str endISO)] else [])
  ++ (if notes ≠ "" then [("user_notes", FormVal.str notes)] else [])
  ++ (match audio with | some a => [("audio_file", FormVal.blob a)] | none => [])
  ++ images.map (fun f => ("photos", FormVal.blob f))

/-- Source: the JSON body of `createSessionJson` (src/unnamed/part_000, lines
432-439): conditional spreads; `user_notes` is included whenever it is a
string (`typeof user_notes === 'string'`). -/
def createSessionJsonBody (vendor_id conference_id start_time : String)
    (end_time local_transcription : String) (user_notes : Option String) : JPayload :=
  [("vendor_id", JVal.s vendor_id),
   ("conference_id", JVal.s conference_id),
   ("start_time", JVal.s start_time)]
  ++ (if end_time ≠ "" then [("end_time", JVal.s end_time)] else [])
  ++ (if local_transcription ≠ "" then
        [("local_transcription", JVal.s local_transcription)] else [])
  ++ (match user_notes with | some u => [("user_notes", JVal.s u)] | none => [])

/-- Source: the `FormData` of `addFilesToSession` (src/unnamed/part_000,
lines 451-459); the `notes` parameter is commented out in the source. -/
def addFilesFormData (audio : Option JSBlob) (imageFiles : List JSBlob) : FormData :=
  (match audio with
   | some a => [("audio_files", FormVal.blob
       { a with name := some (a.name.getD "audio.webm") })]
   | none => [])
  ++ imageFiles.map (fun f => ("image_files", FormVal.blob f))

end Mobile

/-! ### The HTTP attempt / fallback machinery (claims C1, C7) -/

/-- Outcome of one network attempt as seen by `apiFetch`: a parsed JSON body
on a 2xx response, or a thrown `HttpError` carrying `err.status` and
`err.body` (the truncated body sample). -/
inductive Response where
  | ok (j : Json)
  | err (status : Nat) (bodySample : String)

/-- One outbound attempt: the path and body handed to `fetch`. -/
structure Attempt where
  path : String
  body : Body
deriving DecidableEq, Repr

namespace CbApi

/-- Source: `const isUnsupported = e?.status === 415 || (e?.status === 500 &&
String(e.body||'').includes("Unsupported Media Type"));` (src/cb-api.js,
line 97). -/
def isUnsupportedSig (status : Nat) (bodySample : String) : Bool :=
  status == 415 || (status == 500 && csContains bodySample "Unsupported Media Type")

/-- One `apiFetch` attempt without the fallback: success returns the parsed
body, a non-2xx response throws the `HttpError`. This is exactly `apiFetch`
for a body that is not a `FormData`, since the fallback guard
`opts.body instanceof FormData` (src/cb-api.js, line 98) is then false. -/
def apiFetchPlain (resp : Response) (path : String) (body : Body) :
    Except (Nat × String) Json × List Attempt :=
  match resp with
  | .ok j => (.ok j, [⟨path, body⟩])
  | .err st bs => (.error (st, bs), [⟨path, body⟩])

/-- Source: `apiFetch(path, opts)` (src/cb-api.js, lines 71-108), restricted
to the attempt/fallback control flow. `server i` is the network outcome of
the i-th attempt. The returned list is the trace of attempts issued. On the
unsupported-media-type signature with a `FormData` body and a path containing
`/sessions/upload`, the payload is converted to JSON (with a final `delete
asJson.notes`) and resubmitted once through the recursive `apiFetch` call —
which, receiving a string body, is `apiFetchPlain`; a failure of that retry
is caught by the inner `catch(re)` and the ORIGINAL error is rethrown
(src/cb-api.js, lines 104-106). -/
def apiFetchModel (server : Nat → Response) (path : String) (body : Body) (i : Nat) :
    Except (Nat × String) Json × List Attempt :=
  match server i with
  | .ok j => (.ok j, [⟨path, body⟩])
  | .err st bs =>
    match body with
    | .form fd =>
      if isUnsupportedSig st bs && csContains path "/sessions/upload" then
        let asJson := (formDataToJsonPayload fd).filter (fun p => p.1 ≠ "notes")
        let retry := apiFetchPlain (server (i + 1)) path (.jsonStr asJson)
        (match retry.1 with
         | .ok j => .ok j
         | .error _ => .error (st, bs),
         ⟨path, .form fd⟩ :: retry.2)
      else (.error (st, bs), [⟨path, body⟩])
    | b => (.error (st, bs), [⟨path, b⟩])

/-- Upload-level failures of `uploadSession`. -/
inductive UploadErr where
  | http (status : Nat) (bodySample : String)
  | missingSessionId
deriving DecidableEq, Repr

/-- Source: `uploadSession(...)` (src/cb-api.js, lines 222-247): build the
multipart form, call `apiFetch('/sessions/upload', ...)` (fallback included),
extract the session id, then fire the enrichment request inside
`try{...}catch(e){ log(..., 'warn') }` and return the session id. The second
component is the level of the log line recorded for the enrichment step
("info" on success, "warn" on failure, "" when never reached). -/
def uploadSessionModel (server : Nat → Response) (enrichResp : Response) (d : Draft) :
    Except UploadErr Json × String :=
  match (apiFetchModel server "/sessions/upload" (.form (buildUploadFormData d)) 0).1 with
  | .error e => (.error (.http e.1 e.2), "")
  | .ok res =>
    match uploadSessionIdOf res with
    | some sid =>
      if jsTruthy (some sid) then
        match enrichResp with
        | .ok _ => (.ok sid, "info")
        | .err _ _ => (.ok sid, "warn")
      else (.error .missingSessionId, "")
    | none => (.error .missingSessionId, "")

end CbApi

/-! ### Entity resolution (claim C6) -/

/-- A vendor record as the remote API returns it; the lookup chain
`v?.conference_id ?? v?.conferenceId ?? v?.data?.conference_id ?? null`
(src/cb-api.js, line 206) is modelled by the single optional field. -/
structure Vendor where
  id : String
  name : String
  conference_id : Option String
deriving DecidableEq, Repr

/-- A conference record (dates are irrelevant to the claims). -/
structure Conference where
  id : String
  name : String
deriving DecidableEq, Repr

/-- Environment model of the remote API state: entity tables plus a fresh-id
counter for server-assigned ids. -/
structure Env where
  conferences : List Conference
  vendors : List Vendor
  freshId : Nat
deriving DecidableEq, Repr

/-- Server behaviour of `GET /vendors/{id}`: the record, or a thrown HTTP
error (modelled as `none`) when the vendor does not exist. -/
def getVendorE (env : Env) (vid : String) : Option Vendor :=
  env.vendors.find? (fun v => v.id == vid)

/-- Server behaviour of `GET /conferences/{id}/vendors`. -/
def listVendorsForConferenceE (env : Env) (cid : String) : List Vendor :=
  env.vendors.filter (fun v => v.conference_id == some cid)

/-- Server behaviour of `POST /vendors`: a fresh id is assigned. -/
def createVendorE (env : Env) (name cid : String) : Vendor × Env :=
  let v : Vendor := { id := "v_new_" ++ toString env.freshId, name := name,
                      conference_id := some cid }
  (v, { env with vendors := env.vendors ++ [v], freshId := env.freshId + 1 })

namespace CbApi

/-- Result of `getOrCreateVendorByName`: the resolved vendor id, the updated
server state, and whether a vendor was created. -/
structure ResolveOut where
  vid : String
  env : Env
  created : Bool
deriving DecidableEq, Repr

/-- Source: `getOrCreateVendorByName(conferenceId, name)` (src/cb-api.js,
lines 187-197): case-insensitive name match among the vendors of the
conference, else creation. The id chain `found.id ?? found._id ?? ...`
collapses to the record id in the environment model. -/
def getOrCreateVendorByName (env : Env) (conferenceId name : String) : ResolveOut :=
  match (listVendorsForConferenceE env conferenceId).find?
      (fun v => lowerStr v.name == lowerStr name) with
  | some found => ⟨found.id, env, false⟩
  | none =>
    let r := createVendorE env name conferenceId
    ⟨r.1.id, r.2, true⟩

/-- Source: `ensureUnknownConference()` (src/cb-api.js, lines 175-185):
reuse a conference named "unknown conference" (case-insensitively), else
create one. -/
def ensureUnknownConference (env : Env) : String × Env :=
  match env.conferences.find?
      (fun c => lowerStr c.name == lowerStr "unknown conference") with
  | some unk => (unk.id, env)
  | none =>
    let c : Conference := { id := "c_new_" ++ toString env.freshId,
                            name := "Unknown Conference" }
    let env2 : Env := { env with conferences := env.conferences ++ [c], freshId := env.freshId + 1 }
    (c.id, env2)

/-- Source: `ensureConferenceVendor({conferenceId, vendorId,
preferredVendorName})` (src/cb-api.js, lines 199-219). The last component
counts the warning log lines. The `catch` branch (line 211-214) — the vendor
lookup throwing — also replaces the supplied vendor id. -/
def ensureConferenceVendor (env : Env) (conferenceId vendorId preferredVendorName : String) :
    (String × String) × Env × Nat :=
  let step1 := if conferenceId == "" then ensureUnknownConference env
               else (conferenceId, env)
  let cid := step1.1
  let env1 := step1.2
  if vendorId ≠ "" then
    match getVendorE env1 vendorId with
    | some v =>
      match v.conference_id with
      | some c' =>
        if c' ≠ "" && cid ≠ "" && c' ≠ cid then
          let r := getOrCreateVendorByName env1 cid (jsOrS preferredVendorName "Unknown Vendor")
          ((cid, r.vid), r.env, 1)
        else ((cid, vendorId), env1, 0)
      | none => ((cid, vendorId), env1, 0)
    | none =>
      let r := getOrCreateVendorByName env1 cid (jsOrS preferredVendorName "Unknown Vendor")
      ((cid, r.vid), r.env, 1)
  else
    let r := getOrCreateVendorByName env1 cid (jsOrS preferredVendorName "Unknown Vendor")
    ((cid, r.vid), r.env, 0)

/-- The condition under which the vendor lookup "shows it belongs to a
different conference" (src/cb-api.js, line 207). -/
def vendorConflict (env : Env) (cid vid : String) : Bool :=
  match getVendorE env vid with
  | some v =>
    match v.conference_id with
    | some c' => c' ≠ "" && cid ≠ "" && c' ≠ cid
    | none => false
  | none => false

end CbApi

/-! ### Progress polling (claim C9) -/

namespace Mobile

/-- Source: `const processing = s?.data?.processing_status ||
s?.processing_status || s?.status;` (src/unnamed/part_000, line 201). -/
def extractProcessing (s : Json) : Option Json :=
  jsOrJ (jget2 s "data" "processing_status")
    (jsOrJ (jget s "processing_status") (jget s "status"))

/-- JS strict equality test `processing === 'created'`. -/
def isCreatedStr : Option Json → Bool
  | some (.str s) => s == "created"
  | _ => false

/-- The loop guard `if (processing && processing !== 'created') return
processing;` (src/unnamed/part_000, line 203). -/
def goodStatus (s : Json) : Bool :=
  jsTruthy (extractProcessing s) && !isCreatedStr (extractProcessing s)

/-- Source: the loop of `pollProgress` (src/unnamed/part_000, lines 198-207),
started at query index `i` with `n` tries remaining. `server j` is the
`getSession` response of the j-th query; the delay has no observable effect.
Returns the result value and the number of `getSession` queries issued. -/
def pollProgressGo (server : Nat → Json) (i : Nat) : Nat → Json × Nat
  | 0 => (.str "unknown", 0)
  | n + 1 =>
    match extractProcessing (server i) with
    | some v =>
      if jsTruthy (some v) && !isCreatedStr (some v) then (v, 1)
      else
        let r := pollProgressGo server (i + 1) n
        (r.1, r.2 + 1)
    | none =>
      let r := pollProgressGo server (i + 1) n
      (r.1, r.2 + 1)

/-- Source: `pollProgress(sessionId, tries = 5, delayMs = 1500)`
(src/unnamed/part_000, line 198). -/
def pollProgress (server : Nat → Json) (tries : Nat := 5) : Json × Nat :=
  pollProgressGo server 0 tries

end Mobile

/-- First-match lookup among the entries of a `FormData` (the semantics of
`FormData.get`). -/
def fdLookup (fd : FormData) (k : String) : Option FormVal :=
  fd.lookup k

section ModelSanityChecks

example : Mobile.normalizeAudioFile (some ⟨some "rec", "audio/x-m4a", "c"⟩)
    = some ⟨some "rec.m4a", "audio/m4a", "c"⟩ := by decide

example : Mobile.normalizeAudioFile (some ⟨some "rec.wav", "audio/ogg;codecs=opus", "c"⟩)
    = some ⟨some "rec.wav", "audio/ogg", "c"⟩ := by decide

example : Mobile.normalizeAudioFile (some ⟨some "song.MP3", "audio/mpeg", "c"⟩)
    = some ⟨some "song.MP3", "audio/mpeg", "c"⟩ := by decide

example : Mobile.normalizeAudioFile (some ⟨none, "", "c"⟩)
    = some ⟨some "session_audio.m4a", "audio/m4a", "c"⟩ := by decide

example : Mobile.stripTrailingExt "a.b.c" = "a.b" := by decide
example : Mobile.stripTrailingExt "abc." = "abc." := by decide
example : Mobile.stripTrailingExt ".cfg" = "" := by decide
example : Mobile.stripTrailingExt "abc" = "abc" := by decide

-- C1 scratch: 415 on the primary multipart attempt issues exactly one JSON retry.
example :
    (CbApi.apiFetchModel (fun i => if i = 0 then .err 415 "x" else .ok (.str "ok"))
      "/sessions/upload" (.form [("text", .str "hi")]) 0).2 =
    [⟨"/sessions/upload", .form [("text", .str "hi")]⟩,
     ⟨"/sessions/upload", .jsonStr [("images", JVal.files []), ("audio", JVal.nullv),
       ("text", JVal.s "hi")]⟩] := by decide

-- C1 scratch: a 400 issues no retry.
example :
    (CbApi.apiFetchModel (fun _ => .err 400 "bad")
      "/sessions/upload" (.form [("text", .str "hi")]) 0).2.length = 1 := by decide

-- C1 scratch: the retry failing rethrows the ORIGINAL error.
example :
    (CbApi.apiFetchModel (fun i => if i = 0 then .err 415 "x" else .err 400 "bad")
      "/sessions/upload" (.form []) 0).1 = .error (415, "x") := rfl

-- C4 scratch: a nested data.id response fails the cb-api extraction.
example :
    CbApi.uploadSessionIdOk (.obj [("data", .obj [("id", .str "S1")])]) = false := by decide
example :
    specCommonShapeMatches (.obj [("data", .obj [("id", .str "S1")])]) = true := by decide
example :
    Mobile.mobileSessionIdOf (.obj [("data", .obj [("id", .str "S1")])]) = some (.str "S1") := rfl

-- C2 scratch: non-empty notes put a literal 'notes' field in the mobile batch form.
example :
    ("notes" ∈ (Mobile.uploadBatchFormData none [] "hello" "e").map Prod.fst) := by decide
example :
    ("notes" ∉ (Mobile.uploadBatchFormData none [] "" "e").map Prod.fst) := by decide

-- C6 scratch: a failing vendor lookup also replaces the vendor id.
example :
    CbApi.ensureConferenceVendor
      ⟨[⟨"C1", "Conf"⟩], [⟨"V1", "unknown vendor", some "C1"⟩], 0⟩ "C1" "V9" "" =
    (("C1", "V1"), ⟨[⟨"C1", "Conf"⟩], [⟨"V1", "unknown vendor", some "C1"⟩], 0⟩, 1) := by decide

-- C6 scratch: matching conference leaves the pair unchanged.
example :
    (CbApi.ensureConferenceVendor
      ⟨[⟨"C1", "Conf"⟩], [⟨"V1", "v", some "C1"⟩], 0⟩ "C1" "V1" "").1 = ("C1", "V1") := by decide

-- C9 scratch: all 'created' statuses exhaust to "unknown" with 5 queries.
example :
    Mobile.pollProgress (fun _ => .obj [("processing_status", .str "created")]) 5 =
      (.str "unknown", 5) := rfl
example :
    Mobile.pollProgress (fun i => if i < 2 then .obj [("status", .str "created")]
      else .obj [("status", .str "done")]) 5 = (.str "done", 3) := rfl

-- C10 scratch: negative spans clamp to zero; JS rounding.
example : CbApi.secondsBetweenISO 1000 400 = 0 := by
  norm_num [CbApi.secondsBetweenISO, CbApi.jsRound]
example : CbApi.secondsBetweenISO 0 2500 = 3 := by
  norm_num [CbApi.secondsBetweenISO, CbApi.jsRound]
example : CbApi.secondsBetweenISO 0 1400 = 1 := by
  norm_num [CbApi.secondsBetweenISO, CbApi.jsRound]

end ModelSanityChecks

/-! ## Claim C10 — duration clamping -/

/-- Helper: the integer form of the JS rounding in `secondsBetweenISO`. -/
theorem secondsBetweenISO_eq_intDiv (a b : Int) :
    CbApi.secondsBetweenISO a b = max 0 ((b - a + 500) / 1000) := by
  unfold CbApi.secondsBetweenISO CbApi.jsRound
  have hcast : ((b - a : Int) : ℚ) / 1000 + 1 / 2
      = ((b - a + 500 : Int) : ℚ) / ((1000 : ℕ) : ℚ) := by
    push_cast
    ring
  rw [hcast, Rat.floor_intCast_div_natCast]
  norm_num

/-- C10: for timestamps that parse to valid dates (modelled by their
epoch-millisecond values), the `duration_seconds` value appended by
`uploadSession` equals `max(0, round((end - start)/1000))`: it is a
non-negative integer, equal to `0` whenever the end is at or before the
start, and its integer form is `max 0 ((end - start + 500) / 1000)`. -/
theorem uploadSession_duration (d : Draft) :
    ("duration_seconds",
      FormVal.str (toString (CbApi.secondsBetweenISO d.startMs d.endMs)))
        ∈ CbApi.buildUploadFormData d ∧
    ("durationSeconds",
      FormVal.str (toString (CbApi.secondsBetweenISO d.startMs d.endMs)))
        ∈ CbApi.buildUploadFormData d ∧
    0 ≤ CbApi.secondsBetweenISO d.startMs d.endMs ∧
    (d.endMs ≤ d.startMs → CbApi.secondsBetweenISO d.startMs d.endMs = 0) ∧
    CbApi.secondsBetweenISO d.startMs d.endMs
      = max 0 ((d.endMs - d.startMs + 500) / 1000) := by
  refine ⟨?_, ?_, ?_, ?_, secondsBetweenISO_eq_intDiv _ _⟩
  · simp [CbApi.buildUploadFormData]
  · simp [CbApi.buildUploadFormData]
  · exact le_max_left _ _
  · intro h
    rw [secondsBetweenISO_eq_intDiv]
    have hq : (d.endMs - d.startMs + 500) / 1000 ≤ 0 := by omega
    exact max_eq_left hq

/-- A concrete draft whose end precedes its start. -/
def backwardsDraft : Draft :=
  { audio := none, images := [], text := "", conferenceId := "C",
    vendorId := "V", startMs := 2000, endMs := 1000 }

/-- Witness for C10 at a concrete draft whose end precedes its start. -/
theorem uploadSession_duration_witness :
    (1000 : Int) ≤ 2000 ∧
    CbApi.secondsBetweenISO 2000 1000 = 0 :=
  ⟨by norm_num, (uploadSession_duration backwardsDraft).2.2.2.1 (by decide)⟩

/-! ## Claim C5 — log buffer capacity and FIFO eviction -/

/-- Helper: an append step below capacity just appends. -/
theorem pushLog_below_cap (logs : List LogEntry) (e : LogEntry)
    (h : logs.length + 1 ≤ CbApi.LOG_CAP) :
    CbApi.pushLog logs e = logs ++ [e] := by
  simp only [CbApi.pushLog]
  rw [if_neg]
  simp only [List.length_append, List.length_singleton]
  omega

/-- Helper: folding below capacity never evicts. -/
theorem foldl_pushLog_no_evict :
    ∀ (es init : List LogEntry), init.length + es.length ≤ CbApi.LOG_CAP →
      es.foldl CbApi.pushLog init = init ++ es := by
  intro es
  induction es with
  | nil => intro init _; simp
  | cons e t ih =>
    intro init h
    have h1 : init.length + 1 ≤ CbApi.LOG_CAP := by
      simp [List.length_cons] at h
      omega
    rw [List.foldl_cons, pushLog_below_cap init e h1, ih]
    · simp
    · simp at h ⊢
      omega

/-- Helper: one append step never leaves more than the capacity. -/
theorem pushLog_length_le (logs : List LogEntry) (e : LogEntry)
    (h : logs.length ≤ CbApi.LOG_CAP) :
    (CbApi.pushLog logs e).length ≤ CbApi.LOG_CAP := by
  simp only [CbApi.pushLog]
  split
  · simp
    omega
  · next hn =>
    simp at hn ⊢
    omega

/-- Helper: the buffer length never exceeds the capacity. -/
theorem foldl_pushLog_length_le :
    ∀ (es init : List LogEntry), init.length ≤ CbApi.LOG_CAP →
      (es.foldl CbApi.pushLog init).length ≤ CbApi.LOG_CAP := by
  intro es
  induction es with
  | nil => intro init h; simpa using h
  | cons e t ih =>
    intro init h
    rw [List.foldl_cons]
    exact ih _ (pushLog_length_le init e h)

/-- C5 (amended): the `cb-api.js` log buffer has fixed capacity
`LOG_CAP = 5000`; it never exceeds that capacity, and emitting
`LOG_CAP + 1` entries into an empty buffer leaves exactly the last
`LOG_CAP` entries — the oldest entry is evicted (FIFO). -/
theorem pushLog_buffer_fifo :
    (∀ es : List LogEntry, (es.foldl CbApi.pushLog []).length ≤ CbApi.LOG_CAP) ∧
    (∀ es : List LogEntry, es.length = CbApi.LOG_CAP + 1 →
       es.foldl CbApi.pushLog [] = es.tail ∧
       (es.foldl CbApi.pushLog []).length = CbApi.LOG_CAP) := by
  constructor
  · intro es
    exact foldl_pushLog_length_le es [] (by simp)
  · intro es hlen
    rcases List.eq_nil_or_concat es with rfl | ⟨ys, z, rfl⟩
    · simp at hlen
    · simp only [List.concat_eq_append] at hlen ⊢
      have hys : ys.length = CbApi.LOG_CAP := by
        simp at hlen
        omega
      have hfold : ys.foldl CbApi.pushLog [] = ys :=
        by simpa using foldl_pushLog_no_evict ys [] (by simp [hys])
      have hstep : (ys ++ [z]).foldl CbApi.pushLog [] = CbApi.pushLog ys z := by
        rw [List.foldl_append, hfold]
        simp
      have hcap : CbApi.pushLog ys z = (ys ++ [z]).tail := by
        simp only [CbApi.pushLog]
        rw [if_pos]
        simp [hys]
      constructor
      · rw [hstep, hcap]
      · rw [hstep, hcap]
        simp [hys]

/-- A throwaway log record for witnesses and counterexamples. -/
def dummyEntry : LogEntry := ⟨0, "info", "", ""⟩

/-- Witness for C5: emitting 5001 entries leaves the last 5000. -/
theorem pushLog_buffer_fifo_witness :
    (List.replicate (CbApi.LOG_CAP + 1) dummyEntry).foldl CbApi.pushLog []
      = (List.replicate (CbApi.LOG_CAP + 1) dummyEntry).tail :=
  (pushLog_buffer_fifo.2 _ (by simp)).1

/-- Helper: the part_000 buffer is a plain append. -/
theorem foldl_logPush (es init : List LogEntry) :
    es.foldl Mobile.logPush init = init ++ es := by
  induction es generalizing init with
  | nil => simp
  | cons e t ih =>
    rw [List.foldl_cons]
    simp only [Mobile.logPush]
    rw [ih]
    simp

/-- C5 counterexample: the log buffer of the mobile script second half
(`__logs.push(entry)`, src/unnamed/part_000 line 320) has no maximum
capacity at all: no bound `N` caps its length. -/
theorem mobile_logPush_unbounded :
    ¬ ∃ N : Nat, ∀ es : List LogEntry,
      (es.foldl Mobile.logPush []).length ≤ N := by
  rintro ⟨N, h⟩
  have h1 := h (List.replicate (N + 1) dummyEntry)
  rw [foldl_logPush] at h1
  simp at h1

/-! ## Claim C8 — no explicit Content-Type for multipart bodies -/

/-- Helper: lookup distributes over header concatenation. -/
theorem lookup_append {α : Type} (l₁ l₂ : List (String × α)) (k : String) :
    (l₁ ++ l₂).lookup k = ((l₁.lookup k).or (l₂.lookup k)) := by
  induction l₁ with
  | nil => simp [List.lookup]
  | cons p t ih =>
    simp only [List.cons_append, List.lookup]
    cases hk : (k == p.1) <;> simp [hk, ih]

/-- Helper: the auth headers never carry a Content-Type entry. -/
theorem buildAuthHeaders_no_ct (mode key : String) :
    hGet (CbApi.buildAuthHeaders mode key) "Content-Type" = none := by
  unfold CbApi.buildAuthHeaders
  split
  · rfl
  · split <;> rfl

/-- C8: with a multipart `FormData` body the client adds no Content-Type
header (whatever it sends for that name is exactly what the caller passed,
and the two part_000 multipart senders pass none); the client auto-sets
`Content-Type: application/json` only for a non-empty string body when the
caller supplied no Content-Type. -/
theorem multipart_no_content_type :
    (∀ (h : Headers) (mode key : String) (fd : FormData),
       hGet (CbApi.apiFetchHeaders h mode key (.form fd)) "Content-Type"
         = hGet h "Content-Type") ∧
    (∀ (h : Headers) (mode key s : String), s ≠ "" →
       hGet h "Content-Type" = none →
       hGet (CbApi.apiFetchHeaders h mode key (.str s)) "Content-Type"
         = some "application/json") ∧
    (∀ key : String, hGet (Mobile.httpFormHeaders key) "Content-Type" = none) ∧
    (∀ key : String, hGet (Mobile.apiFetchHeaders [] key) "Content-Type" = none) := by
  have hmerge : ∀ (h : Headers) (mode key : String),
      hGet (jsSpread2 h (CbApi.buildAuthHeaders mode key)) "Content-Type"
        = hGet h "Content-Type" := by
    intro h mode key
    unfold jsSpread2 hGet
    rw [lookup_append]
    rw [show (CbApi.buildAuthHeaders mode key).lookup "Content-Type" = none from
      buildAuthHeaders_no_ct mode key]
    rfl
  refine ⟨?_, ?_, ?_, ?_⟩
  · intro h mode key fd
    have hm := hmerge h mode key
    simp [CbApi.apiFetchHeaders, isNonEmptyStringBody, hm]
  · intro h mode key s hs hct
    have hmrg := hmerge h mode key
    rw [hct] at hmrg
    simp only [CbApi.apiFetchHeaders]
    rw [hmrg]
    simp only [isNonEmptyStringBody]
    rw [if_pos (by simp [hs])]
    simp [hGet, List.lookup]
  · intro key
    rfl
  · intro key
    rfl

/-- Witness for C8: a concrete caller with no Content-Type and a JSON string
body gets `application/json`; the same caller with a form body gets no
Content-Type at all. -/
theorem multipart_no_content_type_witness :
    hGet (CbApi.apiFetchHeaders [] "xapikey" "k" (.str "\x7b\x7d")) "Content-Type"
      = some "application/json" ∧
    hGet (CbApi.apiFetchHeaders [] "xapikey" "k" (.form [])) "Content-Type" = none :=
  ⟨multipart_no_content_type.2.1 [] "xapikey" "k" "\x7b\x7d" (by decide) rfl,
   multipart_no_content_type.1 [] "xapikey" "k" []⟩

/-! ## Claim C2 — no field literally named `notes` -/

/-- Helper: a constant-key mapped segment whose key differs from "notes". -/
theorem all_key_ne_of_map {β : Type} (key : String) (hk : (key != "notes") = true)
    (l : List β) (f : β → FormVal) :
    ((l.map (fun b => (key, f b))).all (fun p => p.1 != "notes")) = true := by
  induction l with
  | nil => rfl
  | cons x t ih => simp [List.all_cons, hk, ih]

/-- C2 (amended): no outbound payload except the mobile upload-batch form
carries a field literally named "notes", for any Session Draft; the mobile
upload-batch form also omits it whenever the free-text notes are empty; and
the multipart-to-JSON fallback conversion never emits one (it deletes any
that slipped through). -/
theorem no_notes_field :
    (∀ d : Draft,
       (CbApi.buildUploadFormData d).all (fun p => p.1 != "notes") = true) ∧
    (∀ fd : FormData,
       (CbApi.formDataToJsonPayload fd).all (fun p => p.1 != "notes") = true) ∧
    (∀ v c s u : String,
       (Mobile.createMobileSessionPayload v c s u).all (fun p => p.1 != "notes") = true) ∧
    (∀ (audio : Option JSBlob) (images : List JSBlob) (endISO : String),
       (Mobile.uploadBatchFormData audio images "" endISO).all
         (fun p => p.1 != "notes") = true) ∧
    (∀ (v c s e : String) (audio : Option JSBlob) (images : List JSBlob) (n : String),
       (Mobile.fallbackOneShotFormData v c s e audio images n).all
         (fun p => p.1 != "notes") = true) ∧
    (∀ (a b c e lt : String) (un : Option String),
       (Mobile.createSessionJsonBody a b c e lt un).all
         (fun p => p.1 != "notes") = true) ∧
    (∀ (audio : Option JSBlob) (imgs : List JSBlob),
       (Mobile.addFilesFormData audio imgs).all (fun p => p.1 != "notes") = true) := by
  refine ⟨?_, ?_, ?_, ?_, ?_, ?_, ?_⟩
  · intro d
    obtain ⟨audio, images, text, cid, vid, sms, ems⟩ := d
    cases audio <;>
      by_cases ht : text = "" <;>
        simp [CbApi.buildUploadFormData, ht, List.all_append,
          all_key_ne_of_map]
  · intro fd
    rw [List.all_eq_true]
    intro p hp
    simp only [CbApi.formDataToJsonPayload, List.mem_filter] at hp
    simpa using hp.2
  · intro v c s u
    rfl
  · intro audio images endISO
    cases audio <;>
      by_cases he : endISO = "" <;>
        simp [Mobile.uploadBatchFormData, he, List.all_append, all_key_ne_of_map]
  · intro v c s e audio images n
    cases audio <;>
      by_cases he : e = "" <;>
        by_cases hn : n = "" <;>
          simp [Mobile.fallbackOneShotFormData, he, hn, List.all_append,
            all_key_ne_of_map]
  · intro a b c e lt un
    cases un <;>
      by_cases he : e = "" <;>
        by_cases hl : lt = "" <;>
          simp [Mobile.createSessionJsonBody, he, hl, List.all_append]
  · intro audio imgs
    cases audio <;>
      simp [Mobile.addFilesFormData, List.all_append, all_key_ne_of_map]

/-- C2 counterexample: with non-empty free-text notes, the mobile two-step
flow's upload-batch form DOES contain a field literally named "notes"
(src/unnamed/part_000, line 163). -/
theorem uploadBatch_notes_cex :
    "notes" ∈ (Mobile.uploadBatchFormData none [] "hello" "e").map Prod.fst ∧
    "hello" ≠ "" := by
  constructor
  · decide
  · decide

/-! ## Claim C4 — session-id extraction shapes -/

/-- Helper: a nullish value is falsy. -/
theorem jsTruthy_of_nullish (o : Option Json) (h : nullish o = true) :
    jsTruthy o = false := by
  match o with
  | none => rfl
  | some .null => rfl
  | some (.str s) => simp [nullish] at h
  | some (.num n) => simp [nullish] at h
  | some (.jbool b) => simp [nullish] at h
  | some (.obj fs) => simp [nullish] at h
  | some (.arr xs) => simp [nullish] at h

/-- C4 (amended): `uploadSession` accepts exactly the first non-nullish value
among `res.id`, `res.sessionId`, `res._id`, `res.uuid` — a nested wrapper id
is not consulted — and fails the session-id guard iff that value is missing
or falsy; `createMobileSession` accepts the first truthy value among
`res.session_id`, `res.data.id`, `res.id` and fails iff none of those three
shapes is truthy. -/
theorem sessionId_extraction (res : Json) :
    (CbApi.uploadSessionIdOk res
      = jsTruthy (firstNonNullish
          [jget res "id", jget res "sessionId", jget res "_id", jget res "uuid"])) ∧
    (∀ v : Json, jget res "id" = some v → nullish (some v) = false →
       CbApi.uploadSessionIdOf res = some v) ∧
    (Mobile.mobileSessionIdOk res
      = (jsTruthy (jget res "session_id") || jsTruthy (jget2 res "data" "id")
         || jsTruthy (jget res "id"))) ∧
    (∀ v : Json, jget res "session_id" = some v → jsTruthy (some v) = true →
       Mobile.mobileSessionIdOf res = some v) := by
  refine ⟨?_, ?_, ?_, ?_⟩
  · simp only [CbApi.uploadSessionIdOk, CbApi.uploadSessionIdOf, jsCoalesce,
      firstNonNullish]
    by_cases h1 : nullish (jget res "id") = true <;>
      by_cases h2 : nullish (jget res "sessionId") = true <;>
        by_cases h3 : nullish (jget res "_id") = true <;>
          by_cases h4 : nullish (jget res "uuid") = true <;>
            simp [h1, h2, h3, h4, jsTruthy_of_nullish]
    rfl
  · intro v hv hn
    simp [CbApi.uploadSessionIdOf, jsCoalesce, hv, hn]
  · simp only [Mobile.mobileSessionIdOk, Mobile.mobileSessionIdOf, jsOrJ]
    by_cases h1 : jsTruthy (jget res "session_id") = true <;>
      by_cases h2 : jsTruthy (jget2 res "data" "id") = true <;>
        simp [h1, h2]
  · intro v hv ht
    simp [Mobile.mobileSessionIdOf, jsOrJ, hv, ht]

/-- Witness for C4 at a bare-id response. -/
theorem sessionId_extraction_witness :
    CbApi.uploadSessionIdOf (.obj [("id", .str "S1")]) = some (.str "S1") :=
  (sessionId_extraction (.obj [("id", .str "S1")])).2.1 (.str "S1") rfl rfl

/-- A response whose only id sits nested under a `data` wrapper. -/
def nestedResp : Json := .obj [("data", .obj [("id", .str "S1")])]

/-- C4 counterexample: the nested-wrapper shape is one of the claim's
"common response shapes", yet `uploadSession` fails the session-id guard on
it and would raise the missing-session-id error. -/
theorem sessionId_nested_missed :
    specCommonShapeMatches nestedResp = true ∧
    CbApi.uploadSessionIdOk nestedResp = false ∧
    (CbApi.uploadSessionModel (fun _ => .ok nestedResp) (.ok .null) backwardsDraft).1
      = .error .missingSessionId :=
  ⟨rfl, rfl, rfl⟩

/-! ## Claim C1 — fallback triggers exactly once, only on the signature -/

/-- Helper: a plain attempt issues exactly one request. -/
theorem apiFetchPlain_trace (r : Response) (p : String) (b : Body) :
    (CbApi.apiFetchPlain r p b).2 = [⟨p, b⟩] := by
  cases r <;> rfl

/-- C1: for a `FormData` `POST` to a path containing `/sessions/upload`
whose primary attempt fails, the unsupported-media-type signature (415, or
500 with "Unsupported Media Type" in the body) triggers exactly one fallback
attempt — the multipart payload converted to a JSON payload, resubmitted
once to the same path — while any other failure issues zero fallback
attempts and propagates the original error unchanged. -/
theorem apiFetch_upload_fallback (server : Nat → Response) (path : String)
    (fd : FormData) (st : Nat) (bs : String)
    (hpath : csContains path "/sessions/upload" = true)
    (h0 : server 0 = .err st bs) :
    (CbApi.isUnsupportedSig st bs = true →
       (CbApi.apiFetchModel server path (.form fd) 0).2
         = [⟨path, .form fd⟩,
            ⟨path, .jsonStr ((CbApi.formDataToJsonPayload fd).filter
              (fun p => p.1 ≠ "notes"))⟩]) ∧
    (CbApi.isUnsupportedSig st bs = false →
       CbApi.apiFetchModel server path (.form fd) 0
         = (.error (st, bs), [⟨path, .form fd⟩])) := by
  constructor
  · intro hsig
    simp only [CbApi.apiFetchModel, h0]
    rw [if_pos (by simp [hsig, hpath])]
    simp [apiFetchPlain_trace]
  · intro hsig
    simp only [CbApi.apiFetchModel, h0]
    rw [if_neg (by simp [hsig])]

/-- A server that 415s the first attempt and accepts the second. -/
def server415 : Nat → Response :=
  fun i => if i = 0 then .err 415 "" else .ok .null

/-- Witness for C1: a concrete 415 on the upload path issues exactly the
one JSON fallback attempt. -/
theorem apiFetch_upload_fallback_witness :
    (CbApi.apiFetchModel server415 "/sessions/upload" (.form []) 0).2
      = [⟨"/sessions/upload", .form []⟩,
         ⟨"/sessions/upload",
          .jsonStr [("images", JVal.files []), ("audio", JVal.nullv)]⟩] := by
  have h := (apiFetch_upload_fallback server415 "/sessions/upload" [] 415 ""
    (by decide) rfl).1 rfl
  rw [h]
  rfl

/-! ## Claim C7 — enrichment failures never escalate -/

/-- C7: once the upload attempt (fallback included) succeeded and a truthy
session id was extracted, `uploadSession` returns that id whatever the
enrichment call does; an enrichment failure is recorded at level "warn",
success at level "info". -/
theorem enrichment_nonfatal (server : Nat → Response) (d : Draft) (res sid : Json)
    (hup : (CbApi.apiFetchModel server "/sessions/upload"
        (.form (CbApi.buildUploadFormData d)) 0).1 = .ok res)
    (hsid : CbApi.uploadSessionIdOf res = some sid)
    (htr : jsTruthy (some sid) = true) :
    (∀ er : Response, (CbApi.uploadSessionModel server er d).1 = .ok sid) ∧
    (∀ (st : Nat) (bs : String),
       CbApi.uploadSessionModel server (.err st bs) d = (.ok sid, "warn")) ∧
    (∀ j : Json, CbApi.uploadSessionModel server (.ok j) d = (.ok sid, "info")) := by
  have key : ∀ er : Response,
      CbApi.uploadSessionModel server er d
        = (Except.ok sid, match er with | .ok _ => "info" | .err _ _ => "warn") := by
    intro er
    unfold CbApi.uploadSessionModel
    rw [hup]
    dsimp only
    rw [hsid]
    cases er <;> simp [htr]
  exact ⟨fun er => by rw [key er], fun st bs => by rw [key (.err st bs)],
    fun j => by rw [key (.ok j)]⟩

/-- A server that answers every upload attempt with a bare id. -/
def okIdServer : Nat → Response := fun _ => .ok (.obj [("id", .str "S1")])

/-- Witness for C7: a failing enrichment call still yields the session id,
with a "warn" log line. -/
theorem enrichment_nonfatal_witness :
    CbApi.uploadSessionModel okIdServer (.err 500 "boom") backwardsDraft
      = (.ok (.str "S1"), "warn") :=
  (enrichment_nonfatal okIdServer backwardsDraft (.obj [("id", .str "S1")])
    (.str "S1") rfl rfl rfl).2.1 500 "boom"

/-! ## Claim C9 — bounded polling -/

/-- Helper: a good status query carries a value. -/
theorem goodStatus_some (s : Json) (h : Mobile.goodStatus s = true) :
    ∃ v, Mobile.extractProcessing s = some v ∧
      (jsTruthy (some v) && !Mobile.isCreatedStr (some v)) = true := by
  unfold Mobile.goodStatus at h
  cases hx : Mobile.extractProcessing s with
  | none => rw [hx] at h; simp [jsTruthy] at h
  | some v => rw [hx] at h; exact ⟨v, rfl, h⟩

/-- Helper: the polling loop, characterized from any start index. -/
theorem pollProgressGo_spec (server : Nat → Json) :
    ∀ n i : Nat,
      ((Mobile.pollProgressGo server i n).2 ≤ n) ∧
      ((∀ k, k < n → Mobile.goodStatus (server (i + k)) = false) →
         Mobile.pollProgressGo server i n = (.str "unknown", n)) ∧
      (∀ k, k < n → Mobile.goodStatus (server (i + k)) = true →
         (∀ j, j < k → Mobile.goodStatus (server (i + j)) = false) →
         ∃ v, Mobile.extractProcessing (server (i + k)) = some v ∧
              Mobile.pollProgressGo server i n = (v, k + 1)) := by
  intro n
  induction n with
  | zero =>
    intro i
    exact ⟨Nat.le_refl 0, fun _ => rfl, fun k hk => absurd hk (Nat.not_lt_zero k)⟩
  | succ n ih =>
    intro i
    by_cases hg : Mobile.goodStatus (server i) = true
    · obtain ⟨v, hx, hcond⟩ := goodStatus_some _ hg
      have hstep : Mobile.pollProgressGo server i (n + 1) = (v, 1) := by
        unfold Mobile.pollProgressGo
        rw [hx]
        simp [hcond]
      refine ⟨?_, ?_, ?_⟩
      · rw [hstep]
        omega
      · intro hall
        have h0 := hall 0 (Nat.succ_pos n)
        rw [Nat.add_zero] at h0
        rw [h0] at hg
        exact absurd hg (by simp)
      · intro k hk hgk hprev
        cases k with
        | zero =>
          refine ⟨v, ?_, ?_⟩
          · rw [Nat.add_zero]
            exact hx
          · rw [hstep]
        | succ m =>
          have h0 := hprev 0 (Nat.succ_pos m)
          rw [Nat.add_zero] at h0
          rw [h0] at hg
          exact absurd hg (by simp)
    · have hgf : Mobile.goodStatus (server i) = false := by
        cases hb : Mobile.goodStatus (server i)
        · rfl
        · exact absurd hb hg
      have hstep : Mobile.pollProgressGo server i (n + 1)
          = ((Mobile.pollProgressGo server (i + 1) n).1,
             (Mobile.pollProgressGo server (i + 1) n).2 + 1) := by
        unfold Mobile.goodStatus at hgf
        cases hx : Mobile.extractProcessing (server i) with
        | none =>
          conv_lhs => unfold Mobile.pollProgressGo
          rw [hx]
        | some v =>
          rw [hx] at hgf
          conv_lhs => unfold Mobile.pollProgressGo
          simp only [hx]
          rw [if_neg (by simp [hgf])]
      obtain ⟨ih1, ih2, ih3⟩ := ih (i + 1)
      refine ⟨?_, ?_, ?_⟩
      · rw [hstep]
        omega
      · intro hall
        have hih : ∀ k, k < n → Mobile.goodStatus (server (i + 1 + k)) = false := by
          intro k hk
          rw [show i + 1 + k = i + (k + 1) by omega]
          exact hall (k + 1) (by omega)
        rw [hstep, ih2 hih]
      · intro k hk hgk hprev
        cases k with
        | zero =>
          rw [Nat.add_zero] at hgk
          rw [hgk] at hgf
          exact absurd hgf (by simp)
        | succ m =>
          have hgm : Mobile.goodStatus (server (i + 1 + m)) = true := by
            rw [show i + 1 + m = i + (m + 1) by omega]
            exact hgk
          have hpm : ∀ j, j < m → Mobile.goodStatus (server (i + 1 + j)) = false := by
            intro j hj
            rw [show i + 1 + j = i + (j + 1) by omega]
            exact hprev (j + 1) (by omega)
          obtain ⟨v, hv1, hv2⟩ := ih3 m (by omega) hgm hpm
          refine ⟨v, ?_, ?_⟩
          · rw [show i + (m + 1) = i + 1 + m by omega]
            exact hv1
          · rw [hstep, hv2]

/-- C9: `pollProgress` issues at most `tries` queries (5 by default), returns
the first observed truthy processing status differing from "created", and
returns the string "unknown" — it does not fail — when no query within the
bound produced such a status. -/
theorem pollProgress_bounded (server : Nat → Json) (tries : Nat) :
    ((Mobile.pollProgress server tries).2 ≤ tries) ∧
    ((∀ k, k < tries → Mobile.goodStatus (server k) = false) →
       Mobile.pollProgress server tries = (.str "unknown", tries)) ∧
    (∀ k, k < tries → Mobile.goodStatus (server k) = true →
       (∀ j, j < k → Mobile.goodStatus (server j) = false) →
       ∃ v, Mobile.extractProcessing (server k) = some v ∧
            Mobile.pollProgress server tries = (v, k + 1)) := by
  have h := pollProgressGo_spec server tries 0
  simpa [Mobile.pollProgress] using h

/-- A server stuck on the initial "created" status. -/
def createdServer : Nat → Json :=
  fun _ => .obj [("processing_status", .str "created")]

/-- Witness for C9: a server stuck on "created" exhausts the default 5
attempts and yields "unknown". -/
theorem pollProgress_bounded_witness :
    Mobile.pollProgress createdServer 5 = (.str "unknown", 5) :=
  (pollProgress_bounded createdServer 5).2.1 (fun _ _ => rfl)

/-! ## Claim C6 — vendor/conference reconciliation policy -/

/-- C6 (amended): with both ids supplied, the pair is returned unchanged
unless the vendor lookup shows a different conference OR the lookup fails
(vendor not found); in both exceptional cases a warning is logged and a
vendor named `preferredVendorName` (default "Unknown Vendor") is resolved
under the supplied conference — reused on a case-insensitive name match,
otherwise created there — and returned in place of the supplied one. -/
theorem ensureConferenceVendor_policy (env : Env) (cid vid pname : String)
    (hc : cid ≠ "") (hv : vid ≠ "") :
    (CbApi.vendorConflict env cid vid = false → getVendorE env vid ≠ none →
       CbApi.ensureConferenceVendor env cid vid pname = ((cid, vid), env, 0)) ∧
    (CbApi.vendorConflict env cid vid = true ∨ getVendorE env vid = none →
       CbApi.ensureConferenceVendor env cid vid pname
         = ((cid, (CbApi.getOrCreateVendorByName env cid (jsOrS pname "Unknown Vendor")).vid),
            (CbApi.getOrCreateVendorByName env cid (jsOrS pname "Unknown Vendor")).env, 1)) ∧
    (∀ w : Vendor,
       (listVendorsForConferenceE env cid).find?
           (fun x => lowerStr x.name == lowerStr (jsOrS pname "Unknown Vendor")) = some w →
       CbApi.getOrCreateVendorByName env cid (jsOrS pname "Unknown Vendor")
         = ⟨w.id, env, false⟩) ∧
    ((listVendorsForConferenceE env cid).find?
         (fun x => lowerStr x.name == lowerStr (jsOrS pname "Unknown Vendor")) = none →
       CbApi.getOrCreateVendorByName env cid (jsOrS pname "Unknown Vendor")
         = ⟨"v_new_" ++ toString env.freshId,
            ⟨env.conferences,
             env.vendors ++ [⟨"v_new_" ++ toString env.freshId,
               jsOrS pname "Unknown Vendor", some cid⟩],
             env.freshId + 1⟩, true⟩) := by
  have hcb : (cid == "") = false := by simpa using hc
  refine ⟨?_, ?_, ?_, ?_⟩
  · intro hconf hsome
    obtain ⟨v, hvv⟩ := Option.ne_none_iff_exists'.1 hsome
    unfold CbApi.vendorConflict at hconf
    simp only [hvv] at hconf
    unfold CbApi.ensureConferenceVendor
    simp only [hcb, Bool.false_eq_true, if_false, if_pos hv, hvv]
    cases hcc : v.conference_id with
    | none => simp [hcc]
    | some c' =>
      simp only [hcc] at hconf
      simp only [hcc]
      rw [if_neg (by rw [hconf]; simp)]
  · intro hdisj
    unfold CbApi.ensureConferenceVendor
    simp only [hcb, Bool.false_eq_true, if_false, if_pos hv]
    cases hvv : getVendorE env vid with
    | none => simp
    | some v =>
      rcases hdisj with hconf | hnone
      · unfold CbApi.vendorConflict at hconf
        simp only [hvv] at hconf
        cases hcc : v.conference_id with
        | none =>
          simp only [hcc] at hconf
          exact absurd hconf (by simp)
        | some c' =>
          simp only [hcc] at hconf
          simp only [hcc]
          rw [if_pos hconf]
      · rw [hvv] at hnone
        exact absurd hnone (by simp)
  · intro w hw
    unfold CbApi.getOrCreateVendorByName
    rw [hw]
  · intro hn
    unfold CbApi.getOrCreateVendorByName
    rw [hn]
    rfl

/-- A remote state with conference C1 owning an "unknown vendor", and no
vendor V9. -/
def envC6 : Env := ⟨[⟨"C1", "Conf"⟩], [⟨"V1", "unknown vendor", some "C1"⟩], 0⟩

/-- C6 counterexample: with both ids supplied, the vendor lookup for "V9"
does not show a different conference (it fails — no such vendor), yet the
supplied pair is NOT returned unchanged: the existing "unknown vendor" V1 is
returned in its place. -/
theorem ensureConferenceVendor_cex :
    getVendorE envC6 "V9" = none ∧
    (CbApi.ensureConferenceVendor envC6 "C1" "V9" "").1 = ("C1", "V1") ∧
    (("C1", "V1") : String × String) ≠ ("C1", "V9") := by
  refine ⟨by decide, by decide, by decide⟩

/-- A remote state where the supplied vendor belongs to the supplied
conference. -/
def envC6b : Env := ⟨[⟨"C1", "Conf"⟩], [⟨"V1", "v", some "C1"⟩], 0⟩

/-- Witness for C6: a matching pair is returned unchanged with no warning. -/
theorem ensureConferenceVendor_policy_witness :
    CbApi.ensureConferenceVendor envC6b "C1" "V1" "" = (("C1", "V1"), envC6b, 0) :=
  (ensureConferenceVendor_policy envC6b "C1" "V1" "" (by decide) (by decide)).1
    (by decide) (by decide)

/-! ## Claim C3 — audio normalization -/

/-- Helper: lowering distributes over string concatenation. -/
theorem lowerStr_append (s t : String) :
    lowerStr (s ++ t) = lowerStr s ++ lowerStr t := by
  simp [lowerStr]

/-- Helper: a string extended by a lowercase pattern ends with it. -/
theorem ciEndsWith_append (s pat : String) (hpat : lowerStr pat = pat.data) :
    ciEndsWith (s ++ pat) pat = true := by
  unfold ciEndsWith
  rw [lowerStr_append, hpat]
  exact decide_eq_true (List.suffix_append _ _)

/-- Helper: the ordered checks always pick one of the five extensions. -/
theorem chooseAudioExt_mem (ty nm : String) :
    Mobile.chooseAudioExt ty nm ∈ (["ogg", "wav", "mp3", "aac", "m4a"] : List String) := by
  unfold Mobile.chooseAudioExt
  repeat' split
  all_goals simp

/-- Helper: appending a dot and one of the five extensions yields a name
with a known extension. -/
theorem hasKnownExtTest_dotExt (s e : String)
    (he : e ∈ (["ogg", "wav", "mp3", "aac", "m4a"] : List String)) :
    Mobile.hasKnownExtTest (s ++ ("." ++ e)) = true := by
  simp only [List.mem_cons, List.not_mem_nil, or_false] at he
  rcases he with rfl | rfl | rfl | rfl | rfl
  · simp [Mobile.hasKnownExtTest, ciEndsWith_append s ".ogg" (by decide)]
  · simp [Mobile.hasKnownExtTest, ciEndsWith_append s ".wav" (by decide)]
  · simp [Mobile.hasKnownExtTest, ciEndsWith_append s ".mp3" (by decide)]
  · simp [Mobile.hasKnownExtTest, ciEndsWith_append s ".aac" (by decide)]
  · simp [Mobile.hasKnownExtTest, ciEndsWith_append s ".m4a" (by decide)]

/-- Helper: a name passing the known-extension test is non-empty. -/
theorem hasKnownExtTest_ne_empty (n : String)
    (h : Mobile.hasKnownExtTest n = true) : n ≠ "" := by
  intro hn
  rw [hn] at h
  exact absurd h (by decide)

/-- Helper: the pattern "." ++ e is already lowercase for the five
extensions. -/
theorem lowerStr_dotExt (e : String)
    (he : e ∈ (["ogg", "wav", "mp3", "aac", "m4a"] : List String)) :
    lowerStr ("." ++ e) = ("." ++ e).data := by
  simp only [List.mem_cons, List.not_mem_nil, or_false] at he
  rcases he with rfl | rfl | rfl | rfl | rfl <;> decide

/-- C3 (amended): `normalizeAudioFile` maps a JS `null` to `null` and never
throws; on any input whose declared type is outside the allowed set or whose
filename lacks one of the five known extensions, it returns a re-wrapped
file whose filename ends in one of the five known extensions, whose declared
type is the safe type for the extension chosen by the ordered checks (ogg,
wav, mp3, aac, default m4a) — one of the five safe types — with the binary
content preserved; when the original filename lacked a known extension the
new filename ends in the chosen extension itself (so filename and type
match); a filename that already had a known extension is kept, and may
disagree with the chosen type. -/
theorem normalizeAudioFile_safe :
    Mobile.normalizeAudioFile none = none ∧
    ∀ f : JSBlob,
      (Mobile.allowedAudioTypes.contains f.type = false ∨
       Mobile.hasKnownExtTest (f.name.getD "") = false) →
      ∃ g : JSBlob, Mobile.normalizeAudioFile (some f) = some g ∧
        Mobile.hasKnownExtTest (g.name.getD "") = true ∧
        g.type = Mobile.audioTypeMap (Mobile.chooseAudioExt f.type (f.name.getD "")) ∧
        g.type ∈ (["audio/mpeg", "audio/wav", "audio/m4a", "audio/aac",
          "audio/ogg"] : List String) ∧
        g.content = f.content ∧
        (Mobile.hasKnownExtTest (f.name.getD "") = false →
           ciEndsWith (g.name.getD "")
             ("." ++ Mobile.chooseAudioExt f.type (f.name.getD "")) = true) := by
  constructor
  · rfl
  intro f htrig
  have hcond : (!(Mobile.allowedAudioTypes.contains f.type)
      || !(Mobile.hasKnownExtTest (f.name.getD ""))) = true := by
    rcases htrig with h | h
    · rw [h]
      rfl
    · simp only [h, Bool.not_false, Bool.or_true]
  have hmem := chooseAudioExt_mem f.type (f.name.getD "")
  have htymem : Mobile.audioTypeMap (Mobile.chooseAudioExt f.type (f.name.getD ""))
      ∈ (["audio/mpeg", "audio/wav", "audio/m4a", "audio/aac",
          "audio/ogg"] : List String) := by
    simp only [List.mem_cons, List.not_mem_nil, or_false] at hmem
    rcases hmem with h | h | h | h | h <;> rw [h] <;> decide
  cases hke : Mobile.hasKnownExtTest (f.name.getD "") with
  | true =>
    have hgn : f.name.getD "" ≠ "" := hasKnownExtTest_ne_empty _ hke
    refine ⟨⟨some (f.name.getD ""),
      Mobile.audioTypeMap (Mobile.chooseAudioExt f.type (f.name.getD "")),
      f.content⟩, ?_, ?_, rfl, htymem, rfl, ?_⟩
    · simp only [Mobile.normalizeAudioFile]
      rw [if_pos hcond, if_neg (by simp [hke]), if_pos hgn]
    · simpa using hke
    · intro h
      exact absurd h (by simp)
  | false =>
    by_cases hgn : f.name.getD "" = ""
    · refine ⟨⟨some ("session_audio." ++ Mobile.chooseAudioExt f.type (f.name.getD "")),
        Mobile.audioTypeMap (Mobile.chooseAudioExt f.type (f.name.getD "")),
        f.content⟩, ?_, ?_, rfl, htymem, rfl, ?_⟩
      · simp only [Mobile.normalizeAudioFile]
        rw [if_pos hcond, if_neg (by simp [hgn]), if_neg (by simp [hgn])]
      · have hgrp : ("session_audio." : String)
            ++ Mobile.chooseAudioExt f.type (f.name.getD "")
              = "session_audio" ++ ("." ++ Mobile.chooseAudioExt f.type (f.name.getD "")) := by
          rw [← String.append_assoc]
          congr 1
        simpa [hgrp] using hasKnownExtTest_dotExt "session_audio" _ hmem
      · intro _
        have hgrp : ("session_audio." : String)
            ++ Mobile.chooseAudioExt f.type (f.name.getD "")
              = "session_audio" ++ ("." ++ Mobile.chooseAudioExt f.type (f.name.getD "")) := by
          rw [← String.append_assoc]
          congr 1
        simpa [hgrp] using
          ciEndsWith_append "session_audio" _ (lowerStr_dotExt _ hmem)
    · refine ⟨⟨some (Mobile.stripTrailingExt (f.name.getD "") ++ "."
          ++ Mobile.chooseAudioExt f.type (f.name.getD "")),
        Mobile.audioTypeMap (Mobile.chooseAudioExt f.type (f.name.getD "")),
        f.content⟩, ?_, ?_, rfl, htymem, rfl, ?_⟩
      · simp only [Mobile.normalizeAudioFile]
        rw [if_pos hcond, if_pos (by simp [hgn, hke])]
      · rw [String.append_assoc]
        simpa using hasKnownExtTest_dotExt (Mobile.stripTrailingExt (f.name.getD "")) _ hmem
      · intro _
        rw [String.append_assoc]
        simpa using ciEndsWith_append (Mobile.stripTrailingExt (f.name.getD "")) _
          (lowerStr_dotExt _ hmem)

/-- Witness for C3: a Safari-style `audio/x-m4a` blob named "rec" (no
extension) is re-wrapped as "rec.m4a" with type "audio/m4a". -/
theorem normalizeAudioFile_safe_witness :
    ∃ g : JSBlob,
      Mobile.normalizeAudioFile (some ⟨some "rec", "audio/x-m4a", "c"⟩) = some g ∧
      Mobile.hasKnownExtTest (g.name.getD "") = true ∧
      g.type = Mobile.audioTypeMap
        (Mobile.chooseAudioExt "audio/x-m4a" "rec") ∧
      g.type ∈ (["audio/mpeg", "audio/wav", "audio/m4a", "audio/aac",
        "audio/ogg"] : List String) ∧
      g.content = "c" ∧
      (Mobile.hasKnownExtTest "rec" = false →
         ciEndsWith (g.name.getD "")
           ("." ++ Mobile.chooseAudioExt "audio/x-m4a" "rec") = true) :=
  normalizeAudioFile_safe.2 ⟨some "rec", "audio/x-m4a", "c"⟩ (Or.inr (by decide))

/-- C3 counterexample: for a blob typed `audio/ogg;codecs=opus` (not in the
allowed set) named "rec.wav", the original filename is kept, so the result
filename ends in ".wav" while the declared type is "audio/ogg" — NOT the
matching safe type audio/wav for the filename extension. -/
theorem normalizeAudioFile_mismatch_cex :
    Mobile.allowedAudioTypes.contains "audio/ogg;codecs=opus" = false ∧
    Mobile.normalizeAudioFile (some ⟨some "rec.wav", "audio/ogg;codecs=opus", "c"⟩)
      = some ⟨some "rec.wav", "audio/ogg", "c"⟩ ∧
    ciEndsWith "rec.wav" ".wav" = true ∧
    ("audio/ogg" : String) ≠ Mobile.audioTypeMap "wav" := by
  refine ⟨by decide, by decide, by decide, by decide⟩

end CBSesh
